import Mathlib

/-!
# example_pwm: Timer 3 PWM set-up and the triangle-wave duty update

Shallow embedding of `apps/example_pwm/example_pwm.c`.

Machine integers are natural numbers holding the bit pattern of the C value;
every store to a narrower object is an explicit `% 2 ^ width`.  The width of the
C type `int` (16 bits with SDCC on the CC2511, 32 bits on a hosted compiler) is
the parameter `w` of every definition whose source text applies `~` to a
promoted operand.
-/

namespace ExamplePwm

/-- The special function registers the app touches; each is 8 bits wide on the CC2511. -/
structure Regs where
  T3CTL : Nat
  T3CC0 : Nat
  T3CC1 : Nat
  T3CCTL0 : Nat
  T3CCTL1 : Nat
  PERCFG : Nat
  P1SEL : Nat
  deriving DecidableEq, Repr

/-- Every register holds an 8-bit value. -/
def Regs.valid (s : Regs) : Prop :=
  s.T3CTL < 256 ∧ s.T3CC0 < 256 ∧ s.T3CC1 < 256 ∧ s.T3CCTL0 < 256 ∧
    s.T3CCTL1 < 256 ∧ s.PERCFG < 256 ∧ s.P1SEL < 256

instance (s : Regs) : Decidable s.valid := by
  unfold Regs.valid; infer_instance

/-- The C operator `~` on an operand already promoted to a `w`-bit `int` or
`unsigned int`: every one of the `w` bits of the pattern is flipped. -/
def bitNot (w v : Nat) : Nat := 2 ^ w - 1 - v

/-- Conversion of an integer value to an 8-bit register on assignment. -/
def toU8 (v : Nat) : Nat := v % 256

/-- Conversion of the `uint32` result of `getMs() >> 3` to the `uint16` variable `x`. -/
def toU16 (v : Nat) : Nat := v % 2 ^ 16

/-- Body of `timer3Init`, statement by statement (line 37 to line 52).  The
chained assignments store right to left. -/
def timer3Init (w : Nat) (s : Regs) : Regs :=
  -- T3CTL = 0b01010000;
  let s := { s with T3CTL := toU8 0b01010000 }
  -- T3CC0 = T3CC1 = 0;
  let s := { s with T3CC1 := toU8 0 }
  let s := { s with T3CC0 := s.T3CC1 }
  -- T3CCTL0 = T3CCTL1 = 0b00100100;
  let s := { s with T3CCTL1 := toU8 0b00100100 }
  let s := { s with T3CCTL0 := s.T3CCTL1 }
  -- PERCFG &= ~(1<<6);
  let s := { s with PERCFG := toU8 (s.PERCFG &&& bitNot w (1 <<< 6)) }
  -- P1SEL |= (1<<3) | (1<<4);
  { s with P1SEL := toU8 (s.P1SEL ||| ((1 <<< 3) ||| (1 <<< 4))) }

/-- The expression on the right of line 68, `(x >> 8 & 1) ? ~x : x`, before the
store to the register; `x` is the `uint16` sample. -/
def waveExpr (w x : Nat) : Nat :=
  if (x >>> 8) &&& 1 ≠ 0 then bitNot w x else x

/-- Body of `updatePwm` (line 61 to line 68); `ms` is the value `getMs()` returns. -/
def updatePwm (w ms : Nat) (s : Regs) : Regs :=
  -- T3CC0 = 210;
  let s := { s with T3CC0 := toU8 210 }
  -- x = getMs() >> 3;
  let x := toU16 (ms >>> 3)
  -- T3CC1 = (x >> 8 & 1) ? ~x : x;
  { s with T3CC1 := toU8 (waveExpr w x) }

/-- The value `updatePwm` leaves in `T3CC1` (channel 1, pin P1_4) at time `ms`. -/
def dutyB (w ms : Nat) (s : Regs) : Nat := (updatePwm w ms s).T3CC1

/-- The value `updatePwm` leaves in `T3CC0` (channel 0, pin P1_3) at time `ms`. -/
def dutyA (w ms : Nat) (s : Regs) : Nat := (updatePwm w ms s).T3CC0

/-- A register file with every register zero, used to instantiate the theorems. -/
def zeroRegs : Regs := ⟨0, 0, 0, 0, 0, 0, 0⟩

/-- A register file with arbitrary 8-bit contents, used to instantiate the theorems. -/
def busyRegs : Regs := ⟨0xFF, 0x5A, 0xA5, 0x81, 0x7E, 0xFF, 0x42⟩

/-- A register file in which Timer 3 has been moved to its Alternative 2 location
(`PERCFG` bit 5 set) before `timer3Init` runs. -/
def t3Alt2Regs : Regs := ⟨0, 0, 0, 0, 0, 0x20, 0⟩

/-- The field of a register value made of bit `hi` down to bit `lo`. -/
def bitField (v hi lo : Nat) : Nat := (v >>> lo) % 2 ^ (hi + 1 - lo)

/-- The PWM frequency in kHz as the comment of lines 34 to 36 derives it: the tick
frequency divided by the prescaler `2 ^ div` and by the 256 counts of one
free-running period. -/
def pwmFrequencyKHz (tickKHz : ℚ) (div : Nat) : ℚ := tickKHz / 2 ^ div / 256

/-- Body of `main` as far as the timer registers go: `timer3Init` once, then one
`updatePwm` per loop iteration, `ts` listing the value `getMs()` returned in each
iteration.  The library calls `systemInit`, `usbInit`, `boardService`,
`usbShowStatusWithGreenLed` and `usbComService` are taken to leave the registers
of `Regs` alone. -/
def mainLoop (w : Nat) (ts : List Nat) (s : Regs) : Regs :=
  ts.foldl (fun r t => updatePwm w t r) (timer3Init w s)

/-! ## Arithmetic reading of the bit operations -/

/-- With an `int` of at least 16 bits, `2 ^ w` is a positive multiple of `65536`. -/
theorem two_pow_int_width (w : Nat) (hw : 16 ≤ w) : ∃ k, 0 < k ∧ 2 ^ w = 65536 * k := by
  refine ⟨2 ^ (w - 16), Nat.two_pow_pos _, ?_⟩
  have h : w = 16 + (w - 16) := by omega
  calc 2 ^ w = 2 ^ (16 + (w - 16)) := by rw [← h]
    _ = 2 ^ 16 * 2 ^ (w - 16) := by rw [Nat.pow_add]
    _ = 65536 * 2 ^ (w - 16) := by norm_num

/-- The stored value of line 68 in arithmetic form: the low byte of the sample on
the rising half, its reflection on the falling half. -/
theorem toU8_waveExpr (w x : Nat) (hw : 16 ≤ w) (hx : x < 65536) :
    toU8 (waveExpr w x) = if x / 256 % 2 = 0 then x % 256 else 255 - x % 256 := by
  obtain ⟨k, hk, hpow⟩ := two_pow_int_width w hw
  unfold toU8 waveExpr bitNot
  rw [Nat.shiftRight_eq_div_pow, Nat.and_one_is_mod, hpow]
  norm_num
  split_ifs <;> omega

/-- Closed form of the channel-1 duty value as a function of the time alone. -/
theorem dutyB_closed (w t : Nat) (s : Regs) (hw : 16 ≤ w) :
    dutyB w t s = if t / 8 % 512 ≤ 255 then t / 8 % 512 else 511 - t / 8 % 512 := by
  unfold dutyB updatePwm
  simp only []
  rw [toU8_waveExpr w _ hw (by unfold toU16; omega)]
  unfold toU16
  rw [Nat.shiftRight_eq_div_pow]
  norm_num
  split_ifs <;> omega

/-- Clearing a bit with `&= ~mask` and storing the byte twice is the same as once. -/
theorem toU8_and_idem (p m : Nat) : toU8 (toU8 (p &&& m) &&& m) = toU8 (p &&& m) := by
  unfold toU8
  apply Nat.eq_of_testBit_eq
  intro i
  rw [show (256 : Nat) = 2 ^ 8 from rfl]
  simp only [Nat.testBit_mod_two_pow, Nat.testBit_and]
  cases decide (i < 8) <;> cases p.testBit i <;> cases m.testBit i <;> rfl

/-- Setting bits with `|= mask` and storing the byte twice is the same as once. -/
theorem toU8_or_idem (p m : Nat) : toU8 (toU8 (p ||| m) ||| m) = toU8 (p ||| m) := by
  unfold toU8
  apply Nat.eq_of_testBit_eq
  intro i
  rw [show (256 : Nat) = 2 ^ 8 from rfl]
  simp only [Nat.testBit_mod_two_pow, Nat.testBit_or]
  cases decide (i < 8) <;> cases p.testBit i <;> cases m.testBit i <;> rfl

/-- A bit of the mask below bit 8 is set in the stored byte after `|= mask`. -/
theorem testBit_toU8_or (p m i : Nat) (hi : i < 8) (hm : m.testBit i = true) :
    (toU8 (p ||| m)).testBit i = true := by
  unfold toU8
  rw [show (256 : Nat) = 2 ^ 8 from rfl, Nat.testBit_mod_two_pow, Nat.testBit_or, hm]
  simp [hi]

/-- The mask `~(1<<6)` of line 48 acts on a byte as the constant `0xBF`. -/
theorem toU8_and_bitNot_six (w p : Nat) (hw : 16 ≤ w) :
    toU8 (p &&& bitNot w (1 <<< 6)) = p &&& 0xBF := by
  have h64 : 64 < 2 ^ w :=
    Nat.lt_of_lt_of_le (by decide : 64 < 2 ^ 16) (Nat.pow_le_pow_right (by decide) hw)
  unfold toU8 bitNot
  apply Nat.eq_of_testBit_eq
  intro i
  rw [show (256 : Nat) = 2 ^ 8 from rfl, show (1 <<< 6 : Nat) = 64 from rfl, Nat.sub_sub,
    show 1 + 64 = 64 + 1 from rfl]
  simp only [Nat.testBit_mod_two_pow, Nat.testBit_and, Nat.testBit_two_pow_sub_succ h64]
  by_cases hi : i < 8
  · have hiw : i < w := by omega
    have hb : (!Nat.testBit 64 i) = Nat.testBit 0xBF i := by
      interval_cases i <;> rfl
    simp [hi, hiw, hb]
  · have hz : Nat.testBit 0xBF i = false :=
      Nat.testBit_lt_two_pow
        (Nat.lt_of_lt_of_le (by decide : 0xBF < 2 ^ 8) (Nat.pow_le_pow_right (by decide)
          (by omega)))
    simp [hi, hz]

/-- Setting bits of a byte with a byte mask needs no truncation. -/
theorem toU8_or_of_lt (p m : Nat) (hp : p < 256) (hm : m < 256) : toU8 (p ||| m) = p ||| m := by
  unfold toU8
  exact Nat.mod_eq_of_lt (Nat.or_lt_two_pow (n := 8) hp hm)

/-- Any number of `updatePwm` steps leaves the five configuration registers alone. -/
theorem foldl_updatePwm_config (w : Nat) (ts : List Nat) (r : Regs) :
    (ts.foldl (fun r t => updatePwm w t r) r).T3CTL = r.T3CTL ∧
      (ts.foldl (fun r t => updatePwm w t r) r).T3CCTL0 = r.T3CCTL0 ∧
      (ts.foldl (fun r t => updatePwm w t r) r).T3CCTL1 = r.T3CCTL1 ∧
      (ts.foldl (fun r t => updatePwm w t r) r).PERCFG = r.PERCFG ∧
      (ts.foldl (fun r t => updatePwm w t r) r).P1SEL = r.P1SEL := by
  induction ts generalizing r with
  | nil => exact ⟨rfl, rfl, rfl, rfl, rfl⟩
  | cons t rest ih => exact ih (updatePwm w t r)

/-- After at least one `updatePwm` step channel 0 holds its constant duty value. -/
theorem foldl_updatePwm_T3CC0 (w : Nat) (ts : List Nat) (r : Regs) (hne : ts ≠ []) :
    (ts.foldl (fun r t => updatePwm w t r) r).T3CC0 = 210 := by
  induction ts generalizing r with
  | nil => exact absurd rfl hne
  | cons t rest ih =>
    cases rest with
    | nil => rfl
    | cons u more => exact ih (updatePwm w t r) (List.cons_ne_nil u more)

/-! ## The waveform computed by `updatePwm` -/

/-- C1 (triangle-wave reference definition): for an `int` of at least 16 bits and
every time `t` (every 32-bit value in particular), the value `updatePwm` stores in `T3CC1` is the triangle
function of `p = t / 8 % 512`: it is `p` when `p ≤ 255`, it is `511 - p` when
`256 ≤ p`, and so it is `min p (511 - p)`. -/
theorem updatePwm_T3CC1_triangle (w t : Nat) (s : Regs) (hw : 16 ≤ w) :
    (updatePwm w t s).T3CC1 = min (t / 8 % 512) (511 - t / 8 % 512) ∧
      (t / 8 % 512 ≤ 255 → (updatePwm w t s).T3CC1 = t / 8 % 512) ∧
      (256 ≤ t / 8 % 512 → (updatePwm w t s).T3CC1 = 511 - t / 8 % 512) := by
  have h := dutyB_closed w t s hw
  unfold dutyB at h
  refine ⟨?_, ?_, ?_⟩
  · rw [h]; split_ifs <;> omega
  · intro hp; rw [h, if_pos hp]
  · intro hp; rw [h, if_neg (by omega)]

/-- Instance of C1 on the falling ramp with a 16-bit `int`: `t = 3000` gives
`p = 375` and the stored value `136`. -/
theorem updatePwm_T3CC1_triangle_witness :
    16 ≤ 16 ∧
      ((updatePwm 16 3000 busyRegs).T3CC1 = min (3000 / 8 % 512) (511 - 3000 / 8 % 512) ∧
        (3000 / 8 % 512 ≤ 255 → (updatePwm 16 3000 busyRegs).T3CC1 = 3000 / 8 % 512) ∧
        (256 ≤ 3000 / 8 % 512 →
          (updatePwm 16 3000 busyRegs).T3CC1 = 511 - 3000 / 8 % 512)) :=
  ⟨by decide, updatePwm_T3CC1_triangle 16 3000 busyRegs (by decide)⟩

/-- C2 (range invariant): at every time, `updatePwm` stores exactly `210` in
`T3CC0` and a value between `0` and `255` in `T3CC1`; this holds for every
register file, every width of `int` and in particular every 32-bit time. -/
theorem updatePwm_range (w t : Nat) (s : Regs) :
    (updatePwm w t s).T3CC0 = 210 ∧
      0 ≤ (updatePwm w t s).T3CC1 ∧ (updatePwm w t s).T3CC1 ≤ 255 := by
  refine ⟨rfl, Nat.zero_le _, ?_⟩
  show toU8 _ ≤ 255
  unfold toU8
  omega

/-- C3 (periodicity): for every time `t` (every 32-bit value in particular), the `T3CC1` value computed at
`t` and the one computed at `(t + 4096) % 2 ^ 32` are equal. -/
theorem dutyB_periodic (w t : Nat) (s : Regs) (hw : 16 ≤ w) :
    dutyB w t s = dutyB w ((t + 4096) % 2 ^ 32) s := by
  rw [dutyB_closed w t s hw, dutyB_closed w _ s hw]
  norm_num
  have e : (t + 4096) % 4294967296 / 8 % 512 = t / 8 % 512 := by omega
  rw [e]

/-- Instance of C3 at the last period before the 32-bit counter wraps, where
`t + 4096` overflows. -/
theorem dutyB_periodic_witness :
    16 ≤ 16 ∧
      dutyB 16 4294967000 zeroRegs = dutyB 16 ((4294967000 + 4096) % 2 ^ 32) zeroRegs :=
  ⟨by decide, dutyB_periodic 16 4294967000 zeroRegs (by decide)⟩

/-- C4 (monotonic ramp halves): for times `t1 ≤ t2` (32-bit or not) in the same 2048 ms
half-period and `x = t1 >> 3`, the `T3CC1` value does not decrease from `t1` to
`t2` when bit 8 of `x` is 0 and does not increase when bit 8 of `x` is 1. -/
theorem dutyB_monotone_halves (w t1 t2 : Nat) (s1 s2 : Regs) (hw : 16 ≤ w)
    (hle : t1 ≤ t2)
    (hhalf : t1 / 2048 = t2 / 2048) :
    (((t1 >>> 3) >>> 8) &&& 1 = 0 → dutyB w t1 s1 ≤ dutyB w t2 s2) ∧
      (((t1 >>> 3) >>> 8) &&& 1 = 1 → dutyB w t2 s2 ≤ dutyB w t1 s1) := by
  rw [dutyB_closed w t1 s1 hw, dutyB_closed w t2 s2 hw]
  rw [Nat.shiftRight_eq_div_pow, Nat.shiftRight_eq_div_pow, Nat.and_one_is_mod]
  norm_num
  constructor
  · intro hb
    split_ifs <;> omega
  · intro hb
    split_ifs <;> omega

/-- Instance of C4 on a falling half: `t1 = 2100`, `t2 = 3900`. -/
theorem dutyB_monotone_halves_witness :
    (16 ≤ 16 ∧ 2100 ≤ 3900 ∧ 2100 / 2048 = 3900 / 2048) ∧
      ((((2100 >>> 3) >>> 8) &&& 1 = 0 → dutyB 16 2100 zeroRegs ≤ dutyB 16 3900 busyRegs) ∧
        (((2100 >>> 3) >>> 8) &&& 1 = 1 →
          dutyB 16 3900 busyRegs ≤ dutyB 16 2100 zeroRegs)) :=
  ⟨by decide, dutyB_monotone_halves 16 2100 3900 zeroRegs busyRegs (by decide) (by decide)
    (by decide)⟩

/-- C5 (turning-point continuity): with `x` the 16-bit sample of the time `t`
and `x'` the next sample `(x + 1) % 2 ^ 16`, whenever bit 8 of `x` and bit 8 of
`x'` differ the two values stored from `x` and from `x'` differ by at most 1. -/
theorem waveExpr_turning_point (w t : Nat) (hw : 16 ≤ w)
    (hflip : (toU16 (t >>> 3) >>> 8) &&& 1 ≠ (((toU16 (t >>> 3) + 1) % 2 ^ 16) >>> 8) &&& 1) :
    toU8 (waveExpr w (toU16 (t >>> 3))) ≤
        toU8 (waveExpr w ((toU16 (t >>> 3) + 1) % 2 ^ 16)) + 1 ∧
      toU8 (waveExpr w ((toU16 (t >>> 3) + 1) % 2 ^ 16)) ≤
        toU8 (waveExpr w (toU16 (t >>> 3))) + 1 := by
  have hx : toU16 (t >>> 3) < 65536 := by unfold toU16; omega
  have hx1 : (toU16 (t >>> 3) + 1) % 2 ^ 16 < 65536 := by omega
  -- at a turning point the two stored values coincide
  have heq : toU8 (waveExpr w (toU16 (t >>> 3))) =
      toU8 (waveExpr w ((toU16 (t >>> 3) + 1) % 2 ^ 16)) := by
    rw [toU8_waveExpr w _ hw hx, toU8_waveExpr w _ hw hx1]
    rw [Nat.shiftRight_eq_div_pow _ 8, Nat.shiftRight_eq_div_pow _ 8, Nat.and_one_is_mod,
      Nat.and_one_is_mod] at hflip
    generalize toU16 (t >>> 3) = x at hx hx1 hflip ⊢
    norm_num at hflip ⊢
    split_ifs <;> omega
  rw [heq]
  exact ⟨Nat.le_succ _, Nat.le_succ _⟩

/-- Instance of C5 at the apex: `t = 2040` has sample `x = 255` and next sample
`256`, whose bit 8 differs. -/
theorem waveExpr_turning_point_witness :
    (16 ≤ 16 ∧
        (toU16 (2040 >>> 3) >>> 8) &&& 1 ≠ (((toU16 (2040 >>> 3) + 1) % 2 ^ 16) >>> 8) &&& 1) ∧
      (toU8 (waveExpr 16 (toU16 (2040 >>> 3))) ≤
          toU8 (waveExpr 16 ((toU16 (2040 >>> 3) + 1) % 2 ^ 16)) + 1 ∧
        toU8 (waveExpr 16 ((toU16 (2040 >>> 3) + 1) % 2 ^ 16)) ≤
          toU8 (waveExpr 16 (toU16 (2040 >>> 3))) + 1) :=
  ⟨by decide, waveExpr_turning_point 16 2040 (by decide) (by decide)⟩

/-- C6 (wraparound safety): `updatePwm` is a total function of the time; the
`T3CC1` values at `t = 2 ^ 32 - 1` and at `t = 0` are both in `[0, 255]`; and for
every 32-bit `t`, the last one included, the values at `t` and at its wrapped
successor `(t + 1) % 2 ^ 32` differ by at most 1. -/
theorem dutyB_wraparound (w : Nat) (s : Regs) (hw : 16 ≤ w) :
    (∀ t, ∃ r, updatePwm w t s = r) ∧
      (0 ≤ dutyB w (2 ^ 32 - 1) s ∧ dutyB w (2 ^ 32 - 1) s ≤ 255) ∧
      (0 ≤ dutyB w 0 s ∧ dutyB w 0 s ≤ 255) ∧
      ∀ t, t < 2 ^ 32 →
        dutyB w ((t + 1) % 2 ^ 32) s ≤ dutyB w t s + 1 ∧
          dutyB w t s ≤ dutyB w ((t + 1) % 2 ^ 32) s + 1 := by
  refine ⟨fun t => ⟨_, rfl⟩, ?_, ?_, ?_⟩
  · rw [dutyB_closed w _ s hw]; norm_num
  · rw [dutyB_closed w _ s hw]; norm_num
  · intro t ht
    rw [dutyB_closed w t s hw, dutyB_closed w _ s hw]
    norm_num at ht ⊢
    constructor <;> split_ifs <;> omega

/-- Instance of C6 with a 16-bit `int`, read at the wrap `t = 2 ^ 32 - 1`. -/
theorem dutyB_wraparound_witness :
    16 ≤ 16 ∧
      (dutyB 16 ((2 ^ 32 - 1 + 1) % 2 ^ 32) busyRegs ≤ dutyB 16 (2 ^ 32 - 1) busyRegs + 1 ∧
        dutyB 16 (2 ^ 32 - 1) busyRegs ≤ dutyB 16 ((2 ^ 32 - 1 + 1) % 2 ^ 32) busyRegs + 1) :=
  ⟨by decide, (dutyB_wraparound 16 busyRegs (by decide)).2.2.2 (2 ^ 32 - 1) (by decide)⟩

/-- C7 (end-to-end examples): the pair (`T3CC0`, `T3CC1`) that `updatePwm`
produces is (210, 0) at t = 0, (210, 1) at t = 8, (210, 255) at t = 2040,
(210, 255) at t = 2048 and (210, 254) at t = 2056. -/
theorem updatePwm_examples (w : Nat) (s : Regs) (hw : 16 ≤ w) :
    ((updatePwm w 0 s).T3CC0, (updatePwm w 0 s).T3CC1) = (210, 0) ∧
      ((updatePwm w 8 s).T3CC0, (updatePwm w 8 s).T3CC1) = (210, 1) ∧
      ((updatePwm w 2040 s).T3CC0, (updatePwm w 2040 s).T3CC1) = (210, 255) ∧
      ((updatePwm w 2048 s).T3CC0, (updatePwm w 2048 s).T3CC1) = (210, 255) ∧
      ((updatePwm w 2056 s).T3CC0, (updatePwm w 2056 s).T3CC1) = (210, 254) := by
  have h := fun t => dutyB_closed w t s hw
  unfold dutyB at h
  have a : ∀ t, (updatePwm w t s).T3CC0 = 210 := fun _ => rfl
  simp only [a, h]
  norm_num

/-- Instance of C7 with the 16-bit `int` of the target compiler. -/
theorem updatePwm_examples_witness :
    16 ≤ 16 ∧
      (((updatePwm 16 0 busyRegs).T3CC0, (updatePwm 16 0 busyRegs).T3CC1) = (210, 0) ∧
        ((updatePwm 16 8 busyRegs).T3CC0, (updatePwm 16 8 busyRegs).T3CC1) = (210, 1) ∧
        ((updatePwm 16 2040 busyRegs).T3CC0, (updatePwm 16 2040 busyRegs).T3CC1) = (210, 255) ∧
        ((updatePwm 16 2048 busyRegs).T3CC0, (updatePwm 16 2048 busyRegs).T3CC1) = (210, 255) ∧
        ((updatePwm 16 2056 busyRegs).T3CC0, (updatePwm 16 2056 busyRegs).T3CC1) = (210, 254)) :=
  ⟨by decide, updatePwm_examples 16 busyRegs (by decide)⟩

/-- C8 (only the low time bits matter): two times that agree on bits 3 to 11,
that is with equal `t / 8 % 512`, make `updatePwm` store the same `T3CC0` and the
same `T3CC1`, whatever the other bits of the times and the previous register
contents are. -/
theorem updatePwm_low_bits (w t1 t2 : Nat) (s1 s2 : Regs) (hw : 16 ≤ w)
    (hbits : t1 / 8 % 512 = t2 / 8 % 512) :
    (updatePwm w t1 s1).T3CC0 = (updatePwm w t2 s2).T3CC0 ∧
      (updatePwm w t1 s1).T3CC1 = (updatePwm w t2 s2).T3CC1 := by
  refine ⟨rfl, ?_⟩
  have h1 := dutyB_closed w t1 s1 hw
  have h2 := dutyB_closed w t2 s2 hw
  unfold dutyB at h1 h2
  rw [h1, h2, hbits]

/-- Instance of C8: `t1 = 0x00000ABC` and `t2 = 0xFFFFFABF` differ in bits 0 to 2
and 12 to 31 only. -/
theorem updatePwm_low_bits_witness :
    (16 ≤ 16 ∧ 0x00000ABC / 8 % 512 = 0xFFFFFABF / 8 % 512) ∧
      ((updatePwm 16 0x00000ABC zeroRegs).T3CC0 = (updatePwm 16 0xFFFFFABF busyRegs).T3CC0 ∧
        (updatePwm 16 0x00000ABC zeroRegs).T3CC1 =
          (updatePwm 16 0xFFFFFABF busyRegs).T3CC1) :=
  ⟨by decide, updatePwm_low_bits 16 0x00000ABC 0xFFFFFABF zeroRegs busyRegs (by decide)
    (by decide)⟩

/-! ## The configuration written by `timer3Init` -/

/-- C9 (initialization postcondition): from every register file, `timer3Init`
leaves `T3CC0 = 0` and `T3CC1 = 0` and leaves bit 3 and bit 4 of `P1SEL` set. -/
theorem timer3Init_post (w : Nat) (s : Regs) :
    (timer3Init w s).T3CC0 = 0 ∧ (timer3Init w s).T3CC1 = 0 ∧
      (timer3Init w s).P1SEL.testBit 3 = true ∧ (timer3Init w s).P1SEL.testBit 4 = true := by
  refine ⟨rfl, rfl, ?_, ?_⟩
  · exact testBit_toU8_or _ _ 3 (by decide) (by decide)
  · exact testBit_toU8_or _ _ 4 (by decide) (by decide)

/-- C10 (initialization is idempotent): from every register file `s`, running
`timer3Init` twice gives the same seven registers as running it once. -/
theorem timer3Init_idempotent (w : Nat) (s : Regs) :
    timer3Init w (timer3Init w s) = timer3Init w s := by
  unfold timer3Init
  simp only [toU8_and_idem, toU8_or_idem]

/-- C11 (Timer 3 pin routing), evaluated where it fails: started with Timer 3 at
its Alternative 2 location (`PERCFG = 0x20`, bit 5 set), `timer3Init` sets bits 3
and 4 of `P1SEL` but leaves bit 5 of `PERCFG` set, so Timer 3 is not routed to
P1_3 and P1_4; the bit it clears is bit 6. -/
theorem timer3Init_leaves_T3CFG :
    (timer3Init 16 t3Alt2Regs).PERCFG = 0x20 ∧
      (timer3Init 16 t3Alt2Regs).PERCFG.testBit 5 = true ∧
      (timer3Init 16 t3Alt2Regs).P1SEL.testBit 3 = true ∧
      (timer3Init 16 t3Alt2Regs).P1SEL.testBit 4 = true := by
  decide

/-- C12 (frame of initialization on the shared registers): from every 8-bit
register file, `timer3Init` stores `PERCFG &&& 0xBF` in `PERCFG` and
`P1SEL ||| 0x18` in `P1SEL`; every bit of `PERCFG` other than bit 6 and every bit
of `P1SEL` other than bits 3 and 4 keeps its previous value. -/
theorem timer3Init_frame (w : Nat) (s : Regs) (hw : 16 ≤ w) (hv : s.valid) :
    (timer3Init w s).PERCFG = s.PERCFG &&& 0xBF ∧
      (timer3Init w s).P1SEL = s.P1SEL ||| 0x18 ∧
      (∀ i, i ≠ 6 → (timer3Init w s).PERCFG.testBit i = s.PERCFG.testBit i) ∧
      (∀ i, i ≠ 3 → i ≠ 4 → (timer3Init w s).P1SEL.testBit i = s.P1SEL.testBit i) := by
  obtain ⟨_, _, _, _, _, hper, hsel⟩ := hv
  have e1 : (timer3Init w s).PERCFG = s.PERCFG &&& 0xBF := toU8_and_bitNot_six w _ hw
  have e2 : (timer3Init w s).P1SEL = s.P1SEL ||| 0x18 :=
    toU8_or_of_lt _ _ hsel (by decide)
  refine ⟨e1, e2, ?_, ?_⟩
  · intro i hi
    rw [e1, Nat.testBit_and]
    by_cases h8 : i < 8
    · have hb : Nat.testBit 0xBF i = true := by
        interval_cases i <;> first | rfl | exact absurd rfl hi
      rw [hb, Bool.and_true]
    · have hz : s.PERCFG.testBit i = false :=
        Nat.testBit_lt_two_pow
          (Nat.lt_of_lt_of_le (by omega : s.PERCFG < 2 ^ 8) (Nat.pow_le_pow_right (by decide)
            (by omega)))
      rw [hz, Bool.false_and]
  · intro i h3 h4
    rw [e2, Nat.testBit_or]
    have hb : Nat.testBit 0x18 i = false := by
      by_cases h8 : i < 8
      · interval_cases i <;> first | rfl | exact absurd rfl h3 | exact absurd rfl h4
      · exact Nat.testBit_lt_two_pow
          (Nat.lt_of_lt_of_le (by decide : 0x18 < 2 ^ 8) (Nat.pow_le_pow_right (by decide)
            (by omega)))
    rw [hb, Bool.or_false]

/-- Instance of C12 with a 16-bit `int` on a register file with `PERCFG = 0xFF`
and `P1SEL = 0x42`. -/
theorem timer3Init_frame_witness :
    (16 ≤ 16 ∧ busyRegs.valid) ∧
      ((timer3Init 16 busyRegs).PERCFG = busyRegs.PERCFG &&& 0xBF ∧
        (timer3Init 16 busyRegs).P1SEL = busyRegs.P1SEL ||| 0x18 ∧
        (∀ i, i ≠ 6 → (timer3Init 16 busyRegs).PERCFG.testBit i = busyRegs.PERCFG.testBit i) ∧
        (∀ i, i ≠ 3 → i ≠ 4 →
          (timer3Init 16 busyRegs).P1SEL.testBit i = busyRegs.P1SEL.testBit i)) :=
  ⟨by decide, timer3Init_frame 16 busyRegs (by decide) (by decide)⟩

/-- C13 (timer mode and frequency): the value `timer3Init` stores in `T3CTL` is
`0b01010000`; its prescaler field, bits 7 to 5, is `0b010`, that is a division by
`2 ^ 2 = 4`; its start bit 4 is set; its mode field, bits 1 to 0, is `00`; and with
the 24000 kHz tick the PWM frequency is exactly `24000 / 4 / 256 = 23.4375` kHz,
which is 23.4 kHz to one decimal place. -/
theorem timer3Init_T3CTL_mode (w : Nat) (s : Regs) :
    (timer3Init w s).T3CTL = 0b01010000 ∧
      bitField (timer3Init w s).T3CTL 7 5 = 0b010 ∧
      2 ^ bitField (timer3Init w s).T3CTL 7 5 = 4 ∧
      bitField (timer3Init w s).T3CTL 4 4 = 1 ∧
      bitField (timer3Init w s).T3CTL 1 0 = 0 ∧
      pwmFrequencyKHz 24000 (bitField (timer3Init w s).T3CTL 7 5) = 24000 / 4 / 256 ∧
      pwmFrequencyKHz 24000 (bitField (timer3Init w s).T3CTL 7 5) = 23.4375 ∧
      round (pwmFrequencyKHz 24000 (bitField (timer3Init w s).T3CTL 7 5) * 10) = 234 := by
  have e : (timer3Init w s).T3CTL = 0b01010000 := rfl
  have d : bitField 0b01010000 7 5 = 2 := by decide
  rw [e, d]
  refine ⟨rfl, rfl, by norm_num, by decide, by decide, ?_, ?_, ?_⟩
  · unfold pwmFrequencyKHz; norm_num
  · unfold pwmFrequencyKHz; norm_num
  · unfold pwmFrequencyKHz
    rw [round_eq, Int.floor_eq_iff]
    norm_num

/-- C14 (channel PWM mode): `timer3Init` stores the same value `0b00100100` in
`T3CCTL0` and in `T3CCTL1`; in it the mode bit 2 is set, the compare-output field,
bits 5 to 3, is `0b100`, and the interrupt-mask bit 6 and the capture bits 1 to 0
are clear. -/
theorem timer3Init_T3CCTL_mode (w : Nat) (s : Regs) :
    (timer3Init w s).T3CCTL0 = 0b00100100 ∧ (timer3Init w s).T3CCTL1 = 0b00100100 ∧
      bitField (timer3Init w s).T3CCTL0 2 2 = 1 ∧ bitField (timer3Init w s).T3CCTL1 2 2 = 1 ∧
      bitField (timer3Init w s).T3CCTL0 5 3 = 0b100 ∧
      bitField (timer3Init w s).T3CCTL1 5 3 = 0b100 ∧
      bitField (timer3Init w s).T3CCTL0 6 6 = 0 ∧ bitField (timer3Init w s).T3CCTL1 6 6 = 0 ∧
      bitField (timer3Init w s).T3CCTL0 1 0 = 0 ∧ bitField (timer3Init w s).T3CCTL1 1 0 = 0 := by
  have e0 : (timer3Init w s).T3CCTL0 = 0b00100100 := rfl
  have e1 : (timer3Init w s).T3CCTL1 = 0b00100100 := rfl
  rw [e0, e1]
  decide

/-! ## The update step and the main loop -/

/-- C15 (frame and statelessness of the update): `updatePwm` leaves `T3CTL`,
`T3CCTL0`, `T3CCTL1`, `PERCFG` and `P1SEL` as they were; the two values it stores
in `T3CC0` and `T3CC1` are the same from any other register file `r`; and running
it twice at the same time gives the same register file as running it once. -/
theorem updatePwm_frame (w t : Nat) (s r : Regs) :
    ((updatePwm w t s).T3CTL = s.T3CTL ∧ (updatePwm w t s).T3CCTL0 = s.T3CCTL0 ∧
        (updatePwm w t s).T3CCTL1 = s.T3CCTL1 ∧ (updatePwm w t s).PERCFG = s.PERCFG ∧
        (updatePwm w t s).P1SEL = s.P1SEL) ∧
      ((updatePwm w t s).T3CC0 = (updatePwm w t r).T3CC0 ∧
        (updatePwm w t s).T3CC1 = (updatePwm w t r).T3CC1) ∧
      updatePwm w t (updatePwm w t s) = updatePwm w t s :=
  ⟨⟨rfl, rfl, rfl, rfl, rfl⟩, ⟨rfl, rfl⟩, rfl⟩

/-- C16 (main-loop invariant): after `timer3Init` and at least one loop
iteration, at whatever times the iterations read, `T3CTL = 0x50`,
`T3CCTL0 = T3CCTL1 = 0x24`, bits 3 and 4 of `P1SEL` are set, bit 6 of `PERCFG` is
clear and `T3CC0 = 210`. -/
theorem mainLoop_invariant (w : Nat) (ts : List Nat) (s : Regs) (hw : 16 ≤ w)
    (hne : ts ≠ []) :
    (mainLoop w ts s).T3CTL = 0x50 ∧
      (mainLoop w ts s).T3CCTL0 = 0x24 ∧ (mainLoop w ts s).T3CCTL1 = 0x24 ∧
      (mainLoop w ts s).P1SEL.testBit 3 = true ∧ (mainLoop w ts s).P1SEL.testBit 4 = true ∧
      (mainLoop w ts s).PERCFG.testBit 6 = false ∧
      (mainLoop w ts s).T3CC0 = 210 := by
  obtain ⟨h1, h2, h3, h4, h5⟩ := foldl_updatePwm_config w ts (timer3Init w s)
  have h6 := foldl_updatePwm_T3CC0 w ts (timer3Init w s) hne
  unfold mainLoop
  rw [h1, h2, h3, h4, h5, h6]
  refine ⟨rfl, rfl, rfl, ?_, ?_, ?_, rfl⟩
  · exact testBit_toU8_or _ _ 3 (by decide) (by decide)
  · exact testBit_toU8_or _ _ 4 (by decide) (by decide)
  · have e : (timer3Init w s).PERCFG = s.PERCFG &&& 0xBF := toU8_and_bitNot_six w _ hw
    rw [e, Nat.testBit_and, show Nat.testBit 0xBF 6 = false from rfl, Bool.and_false]

/-- Instance of C16: three loop iterations, the last one at the top of the 32-bit
range, from a register file with every configuration bit set. -/
theorem mainLoop_invariant_witness :
    (16 ≤ 16 ∧ [5, 2048, 4294967295] ≠ []) ∧
      ((mainLoop 16 [5, 2048, 4294967295] busyRegs).T3CTL = 0x50 ∧
        (mainLoop 16 [5, 2048, 4294967295] busyRegs).T3CCTL0 = 0x24 ∧
        (mainLoop 16 [5, 2048, 4294967295] busyRegs).T3CCTL1 = 0x24 ∧
        (mainLoop 16 [5, 2048, 4294967295] busyRegs).P1SEL.testBit 3 = true ∧
        (mainLoop 16 [5, 2048, 4294967295] busyRegs).P1SEL.testBit 4 = true ∧
        (mainLoop 16 [5, 2048, 4294967295] busyRegs).PERCFG.testBit 6 = false ∧
        (mainLoop 16 [5, 2048, 4294967295] busyRegs).T3CC0 = 210) :=
  ⟨by decide, mainLoop_invariant 16 [5, 2048, 4294967295] busyRegs (by decide) (by decide)⟩

/-- C17 (4096 ms is the least period): for every shift `d` with `0 < d < 4096`
there is a 32-bit time `t` at which the `T3CC1` value differs from the one at
`(t + d) % 2 ^ 32`. -/
theorem dutyB_least_period (w d : Nat) (s : Regs) (hw : 16 ≤ w) (hd0 : 0 < d)
    (hd : d < 4096) :
    ∃ t, t < 2 ^ 32 ∧ dutyB w t s ≠ dutyB w ((t + d) % 2 ^ 32) s := by
  by_cases hsmall : d < 8
  · refine ⟨7, by norm_num, ?_⟩
    rw [dutyB_closed w 7 s hw, dutyB_closed w _ s hw]
    norm_num
    split_ifs <;> omega
  · by_cases hlarge : 4088 ≤ d
    · refine ⟨8, by norm_num, ?_⟩
      rw [dutyB_closed w 8 s hw, dutyB_closed w _ s hw]
      norm_num
      split_ifs <;> omega
    · refine ⟨0, by norm_num, ?_⟩
      rw [dutyB_closed w 0 s hw, dutyB_closed w _ s hw]
      norm_num
      split_ifs <;> omega

/-- Instance of C17 at the half period `d = 2048`. -/
theorem dutyB_least_period_witness :
    (16 ≤ 16 ∧ 0 < 2048 ∧ 2048 < 4096) ∧
      ∃ t, t < 2 ^ 32 ∧ dutyB 16 t zeroRegs ≠ dutyB 16 ((t + 2048) % 2 ^ 32) zeroRegs :=
  ⟨by decide, dutyB_least_period 16 2048 zeroRegs (by decide) (by decide) (by decide)⟩

/-- C18 (mirror symmetry of the rise and the fall): for every 32-bit time `t`
the `T3CC1` value at `t` equals the one at the complement `2 ^ 32 - 1 - t`, and
within one period the value at `t` equals the one at `4095 - t` for every
`t ≤ 4095`. -/
theorem dutyB_mirror (w : Nat) (s : Regs) (hw : 16 ≤ w) :
    (∀ t, t < 2 ^ 32 → dutyB w t s = dutyB w (2 ^ 32 - 1 - t) s) ∧
      (∀ t, t ≤ 4095 → dutyB w t s = dutyB w (4095 - t) s) := by
  constructor
  · intro t ht
    rw [dutyB_closed w t s hw, dutyB_closed w _ s hw]
    norm_num at ht ⊢
    have e : (4294967295 - t) / 8 % 512 = 511 - t / 8 % 512 := by omega
    rw [e]
    split_ifs <;> omega
  · intro t ht
    rw [dutyB_closed w t s hw, dutyB_closed w _ s hw]
    have e : (4095 - t) / 8 % 512 = 511 - t / 8 % 512 := by omega
    rw [e]
    split_ifs <;> omega

/-- Instance of C18 with a 16-bit `int`: `t = 1000` against its 32-bit
complement and against `4095 - 1000`. -/
theorem dutyB_mirror_witness :
    16 ≤ 16 ∧
      (dutyB 16 1000 busyRegs = dutyB 16 (2 ^ 32 - 1 - 1000) busyRegs ∧
        dutyB 16 1000 busyRegs = dutyB 16 (4095 - 1000) busyRegs) :=
  ⟨by decide, (dutyB_mirror 16 busyRegs (by decide)).1 1000 (by decide),
    (dutyB_mirror 16 busyRegs (by decide)).2 1000 (by decide)⟩

end ExamplePwm
